import Mathlib

/-!
Verification of the vendoring pipeline in `vendor.py` (patch application,
checksum regeneration, crate destruction, license resolution, compliance
audit).  Each Python function the claims touch is translated into an
executable Lean definition over explicit state; external effects
(subprocess patch application, SHA-256, the filesystem) appear as
function parameters so that the control flow and data flow of the script
itself stay fully concrete.
-/

namespace Vendor

/-! ## String utilities (models of the Python `str` operations used) -/

/-- Worker for `strContains`: does `n` occur as a contiguous sublist? -/
def containsAux (n : List Char) : List Char → Bool
  | [] => n.isPrefixOf []
  | c :: cs => n.isPrefixOf (c :: cs) || containsAux n cs

/-- Model of Python `needle in hay` substring containment. -/
def strContains (needle hay : String) : Bool :=
  containsAux needle.data hay.data

/-- Model of Python `s.startswith(p)`. -/
def startsWithStr (p s : String) : Bool :=
  p.data.isPrefixOf s.data

/-- Model of Python `s.endswith(p)`. -/
def endsWithStr (p s : String) : Bool :=
  p.data.isSuffixOf s.data

/-- Model of Python `s.lower()`. -/
def lowerStr (s : String) : String :=
  String.mk (s.data.map Char.toLower)

/-- Model of Python `s.strip()`. -/
def trimStr (s : String) : String :=
  String.mk ((s.data.dropWhile Char.isWhitespace).reverse.dropWhile Char.isWhitespace).reverse

/-- Fuel-indexed worker for `splitOnStr`; fuel is the input length, and each
step consumes at least one character, so the fuel never runs out for a
nonempty separator. -/
def splitGo (sep : List Char) : Nat → List Char → List Char → List (List Char)
  | 0, rest, cur => [cur.reverse ++ rest]
  | fuel + 1, s, cur =>
    match s with
    | [] => [cur.reverse]
    | c :: cs =>
      if sep.isPrefixOf (c :: cs) then
        cur.reverse :: splitGo sep fuel (List.drop sep.length (c :: cs)) []
      else
        splitGo sep fuel cs (c :: cur)

/-- Model of Python `s.split(sep)` for a nonempty separator. -/
def splitOnStr (s sep : String) : List String :=
  (splitGo sep.data s.data.length s.data []).map String.mk

/-- Insert a string into a sorted list (helper for `sortStrings`). -/
def insertSorted (x : String) : List String → List String
  | [] => [x]
  | y :: ys => if x ≤ y then x :: y :: ys else y :: insertSorted x ys

/-- Model of Python `list.sort()` on strings (used by `determine_vendor_crates`). -/
def sortStrings (l : List String) : List String :=
  l.foldr insertSorted []

/-- First-match association lookup, the model of Python `dict[key]` access on
our association-list encoding of dicts. -/
def lookupStr (m : List (String × String)) (k : String) : Option String :=
  match m with
  | [] => none
  | (a, b) :: rest => if a == k then some b else lookupStr rest k

/-- Association lookup returning the paired value for tables whose values are
pairs (used for `STATIC_LICENSE_MAP`). -/
def lookupPair (m : List (String × String × String)) (k : String) : Option (String × String) :=
  match m with
  | [] => none
  | (a, b) :: rest => if a == k then some b else lookupPair rest k

/-- Model of Python `dict[key] = value`: overwrite the existing entry in
place (keys are unique in a dict, so replacing the first occurrence suffices)
or append a new one, preserving insertion order. -/
def assocSet (m : List (String × String)) (k v : String) : List (String × String) :=
  match m with
  | [] => [(k, v)]
  | (a, b) :: rest => if a == k then (k, v) :: rest else (a, b) :: assocSet rest k v

/-! ## Checksum manifests (`_rerun_checksums`, vendor.py lines 35-72) -/

/-- The checksum sidecar file name. -/
def checksumName : String := ".cargo-checksum.json"

/-- One file under a package directory, as seen by `os.walk`:
`dirs` are the directory components below the package root and `fname` the
file name, so the checksum key is `dirs ++ [fname]` joined with `/`. -/
structure FileEnt where
  dirs : List String
  fname : String
  content : String
deriving DecidableEq, Repr

/-- Model of `os.path.relpath(file_path, package_path)`. -/
def FileEnt.relpath (f : FileEnt) : String :=
  String.intercalate "/" (f.dirs ++ [f.fname])

/-- The parsed `.cargo-checksum.json` object: the `files` mapping plus every
other top-level key (such as the `package` archive hash), kept opaque. -/
structure Sidecar where
  files : List (String × String)
  others : List (String × String)
deriving DecidableEq, Repr

/-- A package directory: its files (the top-level sidecar itself is kept
separately because its content is structured) and the optional sidecar. -/
structure PackageDir where
  entries : List FileEnt
  sidecar : Option Sidecar
deriving DecidableEq, Repr

/-- Model of `_rerun_checksums(package_path)` (vendor.py lines 35-72).
`hash` stands for SHA-256 hex digesting of a file's content.  Returns the
updated directory and the function's boolean result.  Mirrors the source
exactly: no sidecar means return `false` untouched; any file *named*
`.cargo-checksum.json` is skipped at every depth; the sidecar is rewritten
(only its `files` key replaced) only when at least one hash was computed. -/
def rerunChecksums (hash : String → String) (pkg : PackageDir) : PackageDir × Bool :=
  match pkg.sidecar with
  | none => (pkg, false)
  | some sc =>
    let hashed := (pkg.entries.filter (fun f => f.fname != checksumName)).map
      (fun f => (f.relpath, hash f.content))
    if hashed.isEmpty then (pkg, true)
    else ({ pkg with sidecar := some { sc with files := hashed } }, true)

/-! ## Patch engine (`apply_patches`, vendor.py lines 129-235) -/

/-- One entry of a selector directory under the patch root, as seen by
`os.listdir`: its name, whether it is a regular file, and whether it carries
the executable bit (`os.access(file_path, os.X_OK)`). -/
structure PatchItem where
  name : String
  isFile : Bool
  isExecutable : Bool
deriving DecidableEq, Repr

/-- One entry of the patch root (`os.listdir(patches_path)`): a target
selector directory (or a stray non-directory entry, which is skipped). -/
structure SelectorDir where
  name : String
  isDir : Bool
  items : List PatchItem
deriving DecidableEq, Repr

/-- Model of `crate_name_plus_ver.rsplit("-", 1)[0]` in
`determine_vendor_crates`: the text before the last hyphen.  (Python raises
on a name with no hyphen; vendored directories are always `name-version`,
so the fallback to the whole string is never exercised.) -/
def crateNameOf (s : String) : String :=
  match s.data.reverse.dropWhile (fun c => c != '-') with
  | [] => s
  | _ :: rest => String.mk rest.reverse

/-- Model of `determine_vendor_crates(vendor_path)[name]`: every vendored
directory whose crate name matches, sorted. -/
def vendorCrateEntries (vendorDirs : List String) (cname : String) : List String :=
  sortStrings (vendorDirs.filter (fun v => crateNameOf v == cname))

/-- The patch-pass accumulator: the `checksums_for` insertion-ordered key
list and the `patches_failed` flag. -/
abbrev PatchAcc := List String × Bool

/-- Model of the inner `for target_name in patch_targets` loop: record the
target in `checksums_for` (before applying), then apply the patch via the
external oracle `applyOk` and accumulate failure. -/
def processTargets (applyOk : String → String → Bool) (filePath : String)
    (targets : List String) (acc : PatchAcc) : PatchAcc :=
  targets.foldl
    (fun a t =>
      ((if a.1.contains t then a.1 else a.1 ++ [t]), (a.2 || !applyOk filePath t)))
    acc

/-- Model of the `for patch in os.listdir(dir_path)` loop: skip
non-files, apply `*.patch` files and executable scripts, skip the rest. -/
def processItems (applyOk : String → String → Bool) (selName : String)
    (items : List PatchItem) (targets : List String) (acc : PatchAcc) : PatchAcc :=
  items.foldl
    (fun a it =>
      if !it.isFile then a
      else if endsWithStr ".patch" it.name || it.isExecutable then
        processTargets applyOk (selName ++ "/" ++ it.name) targets a
      else a)
    acc

/-- Model of the selector loop of `apply_patches`: resolve each selector
(exact vendored directory first, then crate name, else raise
`RuntimeError` immediately — the error value is the unknown selector),
then process its patch items. -/
def patchScan (applyOk : String → String → Bool) (vendorDirs : List String) :
    List SelectorDir → PatchAcc → Except String PatchAcc
  | [], acc => .ok acc
  | s :: rest, acc =>
    if s.isDir then
      if vendorDirs.contains s.name then
        patchScan applyOk vendorDirs rest
          (processItems applyOk s.name s.items [s.name] acc)
      else if (vendorDirs.map crateNameOf).contains s.name then
        patchScan applyOk vendorDirs rest
          (processItems applyOk s.name s.items (vendorCrateEntries vendorDirs s.name) acc)
      else .error s.name
    else patchScan applyOk vendorDirs rest acc

/-- The two ways `apply_patches` can raise. -/
inductive ApplyError where
  | unknownCrate (d : String)
  | patchesFailed
deriving DecidableEq, Repr

/-- Model of `apply_patches(patches_path, vendor_path)` (vendor.py lines
169-235).  Mirrors the source: return early when the patch root is missing;
scan all selectors; raise the aggregate `ValueError` when any application
failed; only then rerun checksums over the touched targets, which the
`.ok` payload lists. -/
def applyPatches (applyOk : String → String → Bool) (patchesDirIsDir : Bool)
    (vendorDirs : List String) (patchDirs : List SelectorDir) :
    Except ApplyError (List String) :=
  if !patchesDirIsDir then .ok []
  else
    match patchScan applyOk vendorDirs patchDirs ([], false) with
    | .error d => .error (.unknownCrate d)
    | .ok (touched, failed) =>
      if failed then .error .patchesFailed else .ok touched

/-- The targets whose checksum manifests `apply_patches` regenerates: the
touched list on success, nothing when the pass raised. -/
def regeneratedTargets (r : Except ApplyError (List String)) : List String :=
  match r with
  | .ok touched => touched
  | .error _ => []

/-- The stages of `main` (vendor.py lines 823-851) that the pipeline can
start, in order. -/
inductive Stage where
  | patchStage
  | destroyStage
  | licenseStage
  | crabStage
deriving DecidableEq, Repr

/-- Model of the ordering of `main`: each stage runs only when every earlier
stage returned instead of raising.  The later stages' outcomes are opaque
inputs; the returned list is the set of stages that started. -/
def mainStages (patchRes : Except ApplyError (List String))
    (licenseRes crabRes : Except String Unit) : List Stage :=
  match patchRes with
  | .error _ => [.patchStage]
  | .ok _ =>
    match licenseRes with
    | .error _ => [.patchStage, .destroyStage, .licenseStage]
    | .ok _ =>
      match crabRes with
      | .error _ => [.patchStage, .destroyStage, .licenseStage, .crabStage]
      | .ok _ => [.patchStage, .destroyStage, .licenseStage, .crabStage]

/-! ## Package metadata (`cargo metadata` output, as the script reads it) -/

/-- One resolved package from the metadata feed: identity token, name,
version, and the optional declared license expression. -/
structure Package where
  id : String
  name : String
  version : String
  license : Option String
deriving DecidableEq, Repr

/-- The `{name}-{version}` vendored directory name of a package. -/
def dirNameOf (p : Package) : String := p.name ++ "-" ++ p.version

/-! ## Crate destroyer (`CrateDestroyer.destroy_unused_crates`,
vendor.py lines 788-820) -/

/-- Model of the package loop of `destroy_unused_crates`: skip packages
whose *name* is in `used_packages` (the platform-filtered metadata's name
set), skip packages whose vendored directory is absent on disk, and destroy
(stub, rewrite manifest, rerun checksums) the rest, returning the destroyed
directories in order. -/
def destroyLoop (usedNames onDisk : List String) : List Package → List String
  | [] => []
  | p :: rest =>
    if usedNames.contains p.name then destroyLoop usedNames onDisk rest
    else if onDisk.contains (dirNameOf p) then
      dirNameOf p :: destroyLoop usedNames onDisk rest
    else destroyLoop usedNames onDisk rest

/-- Model of `destroy_unused_crates`: `unfiltered` is
`load_metadata(working_dir, filter_platform=None)["packages"]`, `filtered`
the platform-filtered metadata, and `onDisk` the vendored directories. -/
def destroyUnusedCrates (unfiltered filtered : List Package)
    (onDisk : List String) : List String :=
  destroyLoop (filtered.map Package.name) onDisk unfiltered

/-! ## Manifest rewriting (`_modify_cargo_toml` and helpers,
vendor.py lines 665-758) -/

/-- A per-target table (`[target.'cfg(...)'.*]`): the three dependency keys
and every other key, kept opaque. -/
structure TargetTable where
  build_dependencies : Option String
  dependencies : Option String
  dev_dependencies : Option String
  other : List (String × String)
deriving DecidableEq, Repr

/-- Python truthiness of a target table: `not values` after the pops. -/
def isEmptyTarget (v : TargetTable) : Bool :=
  v.build_dependencies.isNone && v.dependencies.isNone
    && v.dev_dependencies.isNone && v.other.isEmpty

/-- The three `pop` calls on one target table. -/
def cleanTargetTable (v : TargetTable) : TargetTable :=
  { v with build_dependencies := none, dependencies := none, dev_dependencies := none }

/-- The `[package]` table of a Cargo manifest, with the keys
`_modify_cargo_toml` touches explicit and the rest opaque.  `includeKey`
models the `include` key (`include` is reserved in Lean). -/
structure PackageTable where
  name : String
  version : String
  description : Option String
  license : Option String
  license_file : Option String
  links : Option String
  build : Option String
  default_run : Option String
  includeKey : Option String
  other : List (String × String)
deriving DecidableEq, Repr

/-- The `[lib]` table: the `path` key plus opaque others. -/
structure LibTable where
  path : Option String
  other : List (String × String)
deriving DecidableEq, Repr

/-- A parsed `Cargo.toml`, with the top-level keys the destroyer touches
explicit (presence of an opaque section modelled as `Option String`) and
everything else opaque. -/
structure CargoToml where
  package : PackageTable
  lib : Option LibTable
  bench : Option String
  bin : Option String
  examples : Option String
  test : Option String
  features : Option (List (String × List String))
  dependencies : Option String
  build_dependencies : Option String
  dev_dependencies : Option String
  target : Option (List (String × TargetTable))
  other : List (String × String)
deriving DecidableEq, Repr

/-- Model of `clean_source_related_lines_in_place` (vendor.py lines
665-681).  (Python skips an *empty* `lib`/`package` table by truthiness;
popping from an empty table is the identity, so cleaning unconditionally
agrees.) -/
def clean_source_related_lines_in_place (c : CargoToml) : CargoToml :=
  let c1 := { c with bench := none, bin := none, examples := none, test := none }
  let c2 := match c1.lib with
    | some l => { c1 with lib := some { l with path := none } }
    | none => c1
  { c2 with package := { c2.package with
      build := none, default_run := none, includeKey := none } }

/-- Model of `clean_features_in_place` (vendor.py lines 683-690): a missing
or empty (falsy) features table is returned untouched; otherwise every
feature is set to the empty list, keeping the names. -/
def clean_features_in_place (c : CargoToml) : CargoToml :=
  match c.features with
  | none => c
  | some fs =>
    if fs.isEmpty then c
    else { c with features := some (fs.map (fun nv => (nv.1, ([] : List String)))) }

/-- Model of `remove_all_dependencies_in_place` (vendor.py lines 693-715):
pop the three dependency keys; in each target table pop them too; drop
target entries left empty, and drop the whole `target` key when every entry
ended up empty. -/
def remove_all_dependencies_in_place (c : CargoToml) : CargoToml :=
  let c1 := { c with
    build_dependencies := none, dependencies := none, dev_dependencies := none }
  match c1.target with
  | none => c1
  | some tgt =>
    if tgt.isEmpty then c1
    else
      let cleaned := tgt.map (fun kv => (kv.1, cleanTargetTable kv.2))
      let emptyKeys := (cleaned.filter (fun kv => isEmptyTarget kv.2)).map Prod.fst
      if emptyKeys.length = tgt.length then { c1 with target := none }
      else { c1 with target := some (cleaned.filter (fun kv => !isEmptyTarget kv.2)) }

/-- Model of `CrateDestroyer._modify_cargo_toml` (vendor.py lines 723-758):
set placeholder description/license, pop `license_file` and `links`, then
neuter features, remove dependencies and remove source-related lines. -/
def modify_cargo_toml (c : CargoToml) : CargoToml :=
  let c1 := { c with package := { c.package with
    description := some "Empty crate that should not build.",
    license := some "Apache-2.0",
    license_file := none,
    links := none } }
  let c2 := clean_features_in_place c1
  let c3 := remove_all_dependencies_in_place c2
  clean_source_related_lines_in_place c3

/-- The target entries of a manifest (empty when the key is absent). -/
def targetEntries (c : CargoToml) : List (String × TargetTable) := c.target.getD []

/-- Specification view of what `remove_all_dependencies_in_place` does to
the `target` key, used to state its effect as a single equation. -/
def cleanTargets : Option (List (String × TargetTable)) →
    Option (List (String × TargetTable))
  | none => none
  | some tgt =>
    if tgt.isEmpty then some tgt
    else
      let cleaned := tgt.map (fun kv => (kv.1, cleanTargetTable kv.2))
      let emptyKeys := (cleaned.filter (fun kv => isEmptyTarget kv.2)).map Prod.fst
      if emptyKeys.length = tgt.length then none
      else some (cleaned.filter (fun kv => !isEmptyTarget kv.2))

/-! ## License resolver (`LicenseManager`, vendor.py lines 291-591) -/

/-- `LicenseManager.SUPPORTED_LICENSES`: metadata name to ebuild name. -/
def SUPPORTED_LICENSES : List (String × String) :=
  [("0BSD", "0BSD"), ("Apache-2.0", "Apache-2.0"), ("BSD-3-Clause", "BSD-3"),
   ("ISC", "ISC"), ("MIT", "MIT"), ("MPL-2.0", "MPL-2.0"),
   ("unicode", "unicode"), ("Zlib", "ZLIB")]

/-- `LicenseManager.PREFERRED_ATTRIB_LICENSE_ORDER`. -/
def PREFERRED_ATTRIB_LICENSE_ORDER : List String := ["MIT", "BSD-3", "ISC"]

/-- `LicenseManager.APACHE_LICENSE`, the privileged license. -/
def APACHE_LICENSE : String := "Apache-2.0"

/-- `LicenseManager.MAP_LICENSE_TO_OTHER`. -/
def MAP_LICENSE_TO_OTHER : List (String × String) :=
  [("failure_derive", "failure"), ("grpcio-compiler", "grpcio"),
   ("grpcio-sys", "grpcio"), ("rustyline-derive", "rustyline"),
   ("uefi-macros", "uefi"), ("uefi-services", "uefi")]

/-- `LicenseManager.STATIC_LICENSE_MAP`: package to (license, file). -/
def STATIC_LICENSE_MAP : List (String × String × String) :=
  [("libslirp-sys", "MIT", "LICENSE"),
   ("riscv", "ISC", "README.md"),
   ("riscv-rt", "ISC", "README.md")]

/-- The compound expression special-cased for the `unicode-ident` crate. -/
def UNICODE_COMPOUND : String := "(MIT OR Apache-2.0) AND Unicode-DFS-2016"

/-- One entry of a vendored package directory as `os.listdir` presents it to
`_find_license_in_dir`. -/
structure LFile where
  name : String
  content : String
  isFile : Bool
deriving DecidableEq, Repr

/-- A candidate license file yielded by `_find_license_in_dir`: the search
directory and the file's name and content. -/
structure Cand where
  dir : String
  name : String
  content : String
deriving DecidableEq, Repr

/-- `os.path.join(search_dir, p)` for a candidate. -/
def Cand.path (c : Cand) : String := c.dir ++ "/" ++ c.name

/-- The index of the first entry of `LICENSE_NAMES_REGEX` that matches the
file name (the regexes are fully anchored, matched case-insensitively):
`^license-mit$`, `^copyright$`, `^licen[cs]e.*$`. -/
def licensePatternIdx (name : String) : Option Nat :=
  let l := lowerStr name
  if l == "license-mit" then some 0
  else if l == "copyright" then some 1
  else if startsWithStr "license" l || startsWithStr "licence" l then some 2
  else none

/-- Whether a file name matches any of the license-name patterns. -/
def matchesLicenseName (name : String) : Bool := (licensePatternIdx name).isSome

/-- Model of `_find_license_in_dir` (vendor.py lines 358-369): in listing
order, yield every regular file whose name matches one of the patterns. -/
def findLicenseInDir (dir : String) (files : List LFile) : List Cand :=
  (files.filter (fun f => f.isFile && matchesLicenseName f.name)).map
    (fun f => ⟨dir, f.name, f.content⟩)

/-- Whether a candidate list is ordered by pattern specificity (the claim's
reading of the candidate order); non-matching names rank last. -/
def specificitySorted : List Cand → Bool
  | [] => true
  | [_] => true
  | a :: b :: rest =>
    Nat.ble ((licensePatternIdx a.name).getD 3) ((licensePatternIdx b.name).getD 3)
      && specificitySorted (b :: rest)

/-- Model of `_guess_license_type` (vendor.py lines 371-388): filename
markers first, then content markers. -/
def guessLicenseType (path content : String) : String :=
  if strContains "-MIT" path then "MIT"
  else if strContains "-APACHE" path then "APACHE"
  else if strContains "-BSD" path then "BSD-3"
  else if strContains "MIT" content then "MIT"
  else if strContains "Apache" content then "APACHE"
  else if strContains "BSD 3-Clause" content then "BSD-3"
  else ""

/-- The `found = [x.strip() for x in license.split(delim)]` step: split on
`" OR "` when present, else on `"/"`. -/
def splitTerms (license : String) : List String :=
  let delim := if strContains " OR " license then " OR " else "/"
  (splitOnStr license delim).map trimStr

/-- The `licenses_or` filter: keep and translate supported terms only. -/
def supportedOf (license : String) : List String :=
  (splitTerms license).filterMap (fun f => lookupStr SUPPORTED_LICENSES f)

/-- The preferred-attribution scan for the multiple-licenses branch: for
each preferred kind present among the supported terms, take the first
candidate whose guessed type matches; the first kind that yields a match
wins. -/
def prefScan (lor : List String) (cands : List Cand) : Option (String × String) :=
  (PREFERRED_ATTRIB_LICENSE_ORDER.filter (fun l => lor.contains l)).findSome?
    (fun l =>
      (cands.find? (fun c => guessLicenseType (Cand.path c) c.content == l)).map
        (fun c => (l, Cand.path c)))

/-- The effect of one iteration of the package loop of `generate_license`
on the per-package record: `resolved` carries the license-map entry, the
`has_license_types` addition (if any) and the `has_unicode_license` flag;
`bad` goes to `bad_licenses`; `silent` is the multiple-supported-terms
branch falling through with no match (nothing recorded at all);
`unicodeErr` is the immediate `ValueError` for a missing LICENSE-UNICODE. -/
inductive PkgOutcome where
  | skipped
  | resolved (license : String) (licenseFile : Option String)
      (addType : Option String) (isUnicode : Bool)
  | bad (reason : String)
  | silent
  | unicodeErr
deriving DecidableEq, Repr

/-- Model of the body of the `for package in metadata` loop of
`generate_license` (vendor.py lines 405-534), for one package.  `fsys` maps
a vendored directory name to its listing.  The recorded license-file path is
kept relative to the vendor directory (`relpath` against the working
directory only prepends a constant prefix). -/
def processPackage (skipList : List String) (fsys : String → List LFile)
    (pkg : Package) : PkgOutcome :=
  if skipList.contains pkg.name then .skipped
  else if (lookupStr MAP_LICENSE_TO_OTHER pkg.name).isSome then .skipped
  else
    match lookupPair STATIC_LICENSE_MAP pkg.name with
    | some (l, lf) => .resolved l (some lf) none false
    | none =>
      let license := pkg.license.getD ""
      let dir := pkg.name ++ "-" ++ pkg.version
      let cands := findLicenseInDir dir (fsys dir)
      if license == UNICODE_COMPOUND then
        match cands.find? (fun c => c.name == "LICENSE-UNICODE") with
        | some c => .resolved license (some (Cand.path c)) (some "unicode") true
        | none => .unicodeErr
      else
        let lor := supportedOf license
        if lor.contains APACHE_LICENSE then
          .resolved APACHE_LICENSE none (some APACHE_LICENSE) false
        else if lor.length == 1 then
          match cands with
          | [] => .bad (lor.headD "" ++ " missing license file")
          | c :: _ =>
            .resolved (lor.headD "") (some (Cand.path c)) (some (lor.headD "")) false
        else if 1 < lor.length then
          match prefScan lor cands with
          | some (l, f) => .resolved l (some f) (some l) false
          | none => .silent
        else .bad license

/-- The accumulated state of `generate_license`'s scan: `license_map`,
`bad_licenses`, `has_license_types` (insertion-ordered, deduplicated) and
`has_unicode_license`. -/
structure LicenseScanState where
  licenseMap : List (String × String × Option String)
  badLicenses : List (String × String)
  hasTypes : List String
  hasUnicode : Bool
deriving DecidableEq, Repr

/-- The ways `generate_license` raises. -/
inductive LicenseError where
  | unicodeMissing (pkg : String)
  | badLicensesErr (bad : List (String × String))
  | missingLicenseFile
  | unicodeNoApache
deriving DecidableEq, Repr

/-- `has_license_types.add` on the insertion-ordered set model. -/
def addHasType (tys : List String) (t : Option String) : List String :=
  match t with
  | none => tys
  | some ty => if tys.contains ty then tys else tys ++ [ty]

/-- The package loop of `generate_license`: skip synthesized packages, fold
each package's outcome into the state; the unicode `ValueError` aborts the
scan immediately. -/
def scanPackages (skipList : List String) (fsys : String → List LFile) :
    List Package → LicenseScanState → Except LicenseError LicenseScanState
  | [], st => .ok st
  | p :: rest, st =>
    if strContains "path+file:///" p.id then scanPackages skipList fsys rest st
    else
      match processPackage skipList fsys p with
      | .skipped => scanPackages skipList fsys rest st
      | .resolved l f t u =>
        scanPackages skipList fsys rest
          { st with licenseMap := st.licenseMap ++ [(p.name, l, f)],
                    hasTypes := addHasType st.hasTypes t,
                    hasUnicode := st.hasUnicode || u }
      | .bad r =>
        scanPackages skipList fsys rest
          { st with badLicenses := st.badLicenses ++ [(p.name, r)] }
      | .silent => scanPackages skipList fsys rest st
      | .unicodeErr => .error (.unicodeMissing p.name)

/-- Model of `generate_license` (vendor.py lines 390-591): run the scan,
then raise on `bad_licenses`, then on license-map entries lacking a file
without being the privileged license, then on the unicode compound lacking
its Apache co-license; otherwise return the final state (the artifacts are
written from `licenseMap` and `hasTypes`). -/
def generateLicense (skipList : List String) (fsys : String → List LFile)
    (pkgs : List Package) : Except LicenseError LicenseScanState :=
  match scanPackages skipList fsys pkgs ⟨[], [], [], false⟩ with
  | .error e => .error e
  | .ok st =>
    if !st.badLicenses.isEmpty then .error (.badLicensesErr st.badLicenses)
    else if st.licenseMap.any (fun e => e.2.2.isNone && e.2.1 != APACHE_LICENSE) then
      .error .missingLicenseFile
    else if st.hasUnicode && !st.hasTypes.contains APACHE_LICENSE then
      .error .unicodeNoApache
    else .ok st

/-! ## Compliance audit (`CrabManager`, vendor.py lines 597-662) -/

/-- A parsed crab attestation record: `crate_name`, `version` and the
`common.deny` field (`none` when the key is absent). -/
structure CrabData where
  crate_name : String
  version : String
  deny : Option Bool
deriving DecidableEq, Repr

/-- Model of `_check_bad_traits`: the crate is unacceptable when any
enforced condition (currently only `common.deny`) is truthy. -/
def checkBadTraits (cd : CrabData) : Bool := cd.deny.getD false

/-- One iteration of the package loop of `verify_traits`: skip synthesized
packages, then record the first applicable failure for this crab name. -/
def crabStep (crabFiles : String → Option CrabData)
    (acc : List (String × String)) (p : Package) : List (String × String) :=
  if strContains "path+file:///" p.id then acc
  else
    let crabname := p.name ++ "-" ++ p.version
    match crabFiles crabname with
    | none => assocSet acc crabname "No crab file"
    | some cd =>
      if p.name != cd.crate_name || p.version != cd.version then
        assocSet acc crabname "Crate name or version don\x27t match"
      else if checkBadTraits cd then
        assocSet acc crabname "Failed bad traits check"
      else acc

/-- The `failing_crates` dict built by `verify_traits` (vendor.py lines
620-655). -/
def verifyTraitsMap (crabFiles : String → Option CrabData)
    (pkgs : List Package) : List (String × String) :=
  pkgs.foldl (crabStep crabFiles) []

/-- Model of `verify_traits` (vendor.py lines 620-662): raise exactly when
any crate failed. -/
def verifyTraits (crabFiles : String → Option CrabData)
    (pkgs : List Package) : Except String Unit :=
  if (verifyTraitsMap crabFiles pkgs).isEmpty then .ok ()
  else .error "CRAB audit did not complete successfully."

/-- The failure condition of the audit for one package: missing record,
identity mismatch, or bad traits (read off the branch structure of
`verify_traits`). -/
def crabFails (crabFiles : String → Option CrabData) (p : Package) : Bool :=
  match crabFiles (p.name ++ "-" ++ p.version) with
  | none => true
  | some cd =>
    p.name != cd.crate_name || p.version != cd.version || checkBadTraits cd

end Vendor

namespace Vendor

/-! ## Helper lemmas -/

theorem filter_length_eq_all {α : Type} (p : α → Bool) (l : List α)
    (h : (l.filter p).length = l.length) : ∀ x ∈ l, p x = true := by
  induction l with
  | nil => intro x hx; simp at hx
  | cons a rest ih =>
    intro x hx
    by_cases hpa : p a = true
    · rcases List.mem_cons.mp hx with rfl | hx'
      · exact hpa
      · refine ih ?_ x hx'
        rw [List.filter_cons_of_pos hpa] at h
        simpa using h
    · exfalso
      rw [Bool.not_eq_true] at hpa
      rw [List.filter_cons_of_neg (by simp [hpa])] at h
      have hle := List.length_filter_le p rest
      rw [List.length_cons] at h
      omega

theorem clean_features_eq (x : CargoToml) :
    clean_features_in_place x
      = { x with features :=
            x.features.map (fun fs => fs.map (fun nv => (nv.1, ([] : List String)))) } := by
  rcases x with ⟨pkg, lib, bench, bin, ex, tst, features, dp, bdp, ddp, tgt, oth⟩
  rcases features with _ | ⟨_ | ⟨a, fs'⟩⟩ <;> rfl

theorem remove_deps_eq (x : CargoToml) :
    remove_all_dependencies_in_place x
      = { x with dependencies := none, build_dependencies := none,
                 dev_dependencies := none, target := cleanTargets x.target } := by
  rcases x with ⟨pkg, lib, bench, bin, ex, tst, features, dp, bdp, ddp, tgt, oth⟩
  rcases tgt with _ | l
  · rfl
  · unfold remove_all_dependencies_in_place cleanTargets
    simp only []
    split
    · rfl
    · split <;> rfl

theorem clean_source_eq (x : CargoToml) :
    clean_source_related_lines_in_place x
      = { x with bench := none, bin := none, examples := none, test := none,
                 lib := x.lib.map (fun l => { l with path := none }),
                 package := { x.package with build := none, default_run := none,
                                             includeKey := none } } := by
  rcases x with ⟨pkg, lib, bench, bin, ex, tst, features, dp, bdp, ddp, tgt, oth⟩
  rcases lib with _ | l <;> rfl

theorem mem_cleanTargets (tgtOpt : Option (List (String × TargetTable)))
    (k : String) (v : TargetTable) :
    (k, v) ∈ (cleanTargets tgtOpt).getD [] ↔
      ∃ w, (k, w) ∈ tgtOpt.getD [] ∧ v = cleanTargetTable w
        ∧ isEmptyTarget (cleanTargetTable w) = false := by
  rcases tgtOpt with _ | l
  · simp [cleanTargets]
  · rcases l with _ | ⟨a, l'⟩
    · simp [cleanTargets]
    · unfold cleanTargets
      simp only [List.isEmpty_cons, Bool.false_eq_true, if_false]
      split
      · rename_i hlen
        simp only [Option.getD_none, List.not_mem_nil, false_iff]
        rintro ⟨w, hw, rfl, hne⟩
        rw [List.length_map] at hlen
        rw [← List.length_map (a :: l') (fun kv => (kv.1, cleanTargetTable kv.2))] at hlen
        have hall := filter_length_eq_all _ _ hlen (k, cleanTargetTable w)
          (List.mem_map_of_mem _ hw)
        rw [hall] at hne
        cases hne
      · rename_i hlen
        simp only [Option.getD_some, List.mem_filter, List.mem_map]
        constructor
        · rintro ⟨⟨⟨k', w⟩, hw, heq⟩, hne⟩
          cases heq
          exact ⟨w, hw, rfl, by simpa using hne⟩
        · rintro ⟨w, hw, rfl, hne⟩
          exact ⟨⟨(k, w), hw, rfl⟩, by simpa using hne⟩

theorem lookupStr_map_iff (l : List FileEnt) (key val : FileEnt → String)
    (hnd : (l.map key).Nodup) (p h : String) :
    lookupStr (l.map (fun f => (key f, val f))) p = some h ↔
      ∃ f, f ∈ l ∧ key f = p ∧ val f = h := by
  induction l with
  | nil => simp [lookupStr]
  | cons f rest ih =>
    simp only [List.map_cons, List.nodup_cons, List.mem_map] at hnd
    simp only [List.map_cons, lookupStr]
    by_cases hkey : key f = p
    · subst hkey
      simp only [beq_self_eq_true, if_true, Option.some_inj]
      constructor
      · intro hv; exact ⟨f, List.mem_cons_self .., rfl, hv⟩
      · rintro ⟨g, hg, hkg, hvg⟩
        rcases List.mem_cons.mp hg with rfl | hg'
        · exact hvg
        · exact absurd ⟨g, hg', hkg⟩ hnd.1
    · rw [if_neg (by simpa using hkey), ih hnd.2]
      constructor
      · rintro ⟨g, hg, hkg, hvg⟩; exact ⟨g, List.mem_cons_of_mem _ hg, hkg, hvg⟩
      · rintro ⟨g, hg, hkg, hvg⟩
        rcases List.mem_cons.mp hg with rfl | hg'
        · exact absurd hkg hkey
        · exact ⟨g, hg', hkg, hvg⟩

/-! ## Claim theorems for the checksum manager -/

/-- C2 counterexample package: the directory holds no file other than the
sidecar, and the sidecar still lists a file that no longer exists. -/
def c2demoPkg : PackageDir :=
  { entries := [], sidecar := some { files := [("gone.rs", "deadbeef")], others := [] } }

/-- C2 is false as stated: when the remaining file set is empty,
`_rerun_checksums` does not rewrite the sidecar, so the stale entry for the
removed file `gone.rs` survives even though no such file exists. -/
theorem c2_counterexample :
    ((rerunChecksums (fun _ => "h") c2demoPkg).1.sidecar.map Sidecar.files)
        = some [("gone.rs", "deadbeef")]
      ∧ c2demoPkg.entries.filter (fun f => f.fname != checksumName) = [] := by
  constructor <;> rfl

/-- C2 (amended): for a package directory with a sidecar whose remaining file
set (files not named like the sidecar) is nonempty and has distinct relative
paths, regeneration rewrites the sidecar's mapping to contain a key for
exactly those files, each mapped to the hash of its current content; the
empty-file-set case leaves the sidecar unchanged. -/
theorem c2_amended_thm (hash : String → String) (pkg : PackageDir) (sc : Sidecar)
    (hsc : pkg.sidecar = some sc)
    (hne : pkg.entries.filter (fun f => f.fname != checksumName) ≠ [])
    (hnd : ((pkg.entries.filter (fun f => f.fname != checksumName)).map FileEnt.relpath).Nodup) :
    ∃ sc', (rerunChecksums hash pkg).1.sidecar = some sc' ∧
      ∀ p h, lookupStr sc'.files p = some h ↔
        ∃ f, f ∈ pkg.entries.filter (fun g => g.fname != checksumName) ∧
          f.relpath = p ∧ hash f.content = h := by
  refine ⟨{ sc with
      files := (pkg.entries.filter (fun f => f.fname != checksumName)).map
        (fun f => (f.relpath, hash f.content)) }, ?_, ?_⟩
  · rcases hfilter : pkg.entries.filter (fun f => f.fname != checksumName) with _ | ⟨f, fs⟩
    · exact absurd hfilter hne
    · simp [rerunChecksums, hsc, hfilter]
  · intro p h
    exact lookupStr_map_iff _ FileEnt.relpath (fun f => hash f.content) hnd p h

/-- C2 witness: a concrete one-file package on which the amended theorem's
hypotheses hold and the sidecar mapping is exactly the fresh hash. -/
theorem c2_witness :
    ∃ sc', (rerunChecksums (fun c => "H" ++ c)
        { entries := [⟨[], "lib.rs", "body"⟩],
          sidecar := some { files := [("old", "x")], others := [] } }).1.sidecar = some sc' ∧
      ∀ p h, lookupStr sc'.files p = some h ↔
        ∃ f, f ∈ ([⟨[], "lib.rs", "body"⟩] : List FileEnt).filter
              (fun g => g.fname != checksumName) ∧
          f.relpath = p ∧ ("H" ++ f.content) = h :=
  c2_amended_thm (fun c => "H" ++ c)
    { entries := [⟨[], "lib.rs", "body"⟩],
      sidecar := some { files := [("old", "x")], others := [] } }
    { files := [("old", "x")], others := [] }
    rfl (by decide) (by decide)

/-- Key lemma for the patch pass: a scan that returns normally resolved every
selector directory either as an exact vendored directory or as a crate name. -/
theorem patchScan_ok_resolves (applyOk : String → String → Bool)
    (vendorDirs : List String) :
    ∀ (ps : List SelectorDir) (acc x : PatchAcc),
      patchScan applyOk vendorDirs ps acc = .ok x →
      ∀ s ∈ ps, s.isDir = true →
        (vendorDirs.contains s.name || (vendorDirs.map crateNameOf).contains s.name) = true := by
  intro ps
  induction ps with
  | nil => intro acc x _ s hs; simp at hs
  | cons t rest ih =>
    intro acc x hscan s hs hdir
    rcases List.mem_cons.mp hs with rfl | hs'
    · unfold patchScan at hscan
      rw [if_pos hdir] at hscan
      by_cases h1 : vendorDirs.contains s.name = true
      · rw [h1]; rfl
      · rw [Bool.not_eq_true] at h1
        rw [h1] at hscan
        simp only [Bool.false_eq_true, if_false] at hscan
        by_cases h2 : (vendorDirs.map crateNameOf).contains s.name = true
        · rw [h2, Bool.or_true]
        · rw [Bool.not_eq_true] at h2
          rw [h2] at hscan
          simp at hscan
    · unfold patchScan at hscan
      by_cases hd : t.isDir = true
      · rw [if_pos hd] at hscan
        by_cases h1 : vendorDirs.contains t.name = true
        · rw [if_pos h1] at hscan
          exact ih _ x hscan s hs' hdir
        · rw [Bool.not_eq_true] at h1
          rw [h1] at hscan
          simp only [Bool.false_eq_true, if_false] at hscan
          by_cases h2 : (vendorDirs.map crateNameOf).contains t.name = true
          · rw [if_pos h2] at hscan
            exact ih _ x hscan s hs' hdir
          · rw [Bool.not_eq_true] at h2
            rw [h2] at hscan
            simp at hscan
      · rw [Bool.not_eq_true] at hd
        rw [hd] at hscan
        simp only [Bool.false_eq_true, if_false] at hscan
        exact ih _ x hscan s hs' hdir

/-! ## Claim theorems for the patch engine and pipeline ordering -/

/-- C1 demo: two direct-target selectors, each with one diff patch. -/
def c1demoSelectors : List SelectorDir :=
  [⟨"a-1.0", true, [⟨"fix.patch", true, false⟩]⟩,
   ⟨"b-1.0", true, [⟨"fix.patch", true, false⟩]⟩]

/-- C1 demo vendored directories. -/
def c1demoVendor : List String := ["a-1.0", "b-1.0"]

/-- C1 demo application oracle: every patch applies cleanly except against
`b-1.0`. -/
def c1demoApplyOk : String → String → Bool := fun _ t => t != "b-1.0"

/-- C1 is false as stated: with one failing and one succeeding target the
scan touches both targets and records the failure, and `apply_patches`
raises the aggregate error before the checksum-regeneration loop, so the
successfully patched `a-1.0` never gets its checksums regenerated. -/
theorem c1_counterexample :
    patchScan c1demoApplyOk c1demoVendor c1demoSelectors ([], false)
        = .ok (["a-1.0", "b-1.0"], true)
      ∧ c1demoApplyOk "a-1.0/fix.patch" "a-1.0" = true
      ∧ regeneratedTargets (applyPatches c1demoApplyOk true c1demoVendor c1demoSelectors)
        = [] := by
  refine ⟨rfl, rfl, rfl⟩

/-- C1 (amended): the engine attempts every selector and patch, collecting
failures, but when any application failed it raises the single aggregate
error first and regenerates no checksum manifest at all; the touched targets
get their checksums regenerated only when every application succeeded. -/
theorem c1_amended_thm (applyOk : String → String → Bool) (vendorDirs : List String)
    (patchDirs : List SelectorDir) (touched : List String) (failed : Bool)
    (h : patchScan applyOk vendorDirs patchDirs ([], false) = .ok (touched, failed)) :
    applyPatches applyOk true vendorDirs patchDirs
        = (if failed then .error .patchesFailed else .ok touched)
      ∧ regeneratedTargets (applyPatches applyOk true vendorDirs patchDirs)
        = (if failed then [] else touched) := by
  have happ : applyPatches applyOk true vendorDirs patchDirs
      = (if failed then .error .patchesFailed else .ok touched) := by
    simp [applyPatches, h]
  refine ⟨happ, ?_⟩
  rw [happ]
  cases failed <;> simp [regeneratedTargets]

/-- C1 witness: on the demo inputs the amended theorem yields the aggregate
error and an empty regeneration set. -/
theorem c1_amended_witness :
    applyPatches c1demoApplyOk true c1demoVendor c1demoSelectors
        = .error .patchesFailed
      ∧ regeneratedTargets (applyPatches c1demoApplyOk true c1demoVendor c1demoSelectors)
        = [] := by
  have h := c1_amended_thm c1demoApplyOk c1demoVendor c1demoSelectors
    ["a-1.0", "b-1.0"] true rfl
  simpa using h

/-- C6: a selector directory matching neither an exact vendored directory nor
a known crate name makes `apply_patches` raise the unknown-target error (not
the aggregate patch failure), and neither the license stage nor the
compliance stage of `main` ever starts. -/
theorem c6_thm (applyOk : String → String → Bool) (vendorDirs : List String)
    (patchDirs : List SelectorDir) (s : SelectorDir)
    (licenseRes crabRes : Except String Unit)
    (hs : s ∈ patchDirs) (hdir : s.isDir = true)
    (hvd : vendorDirs.contains s.name = false)
    (hcn : (vendorDirs.map crateNameOf).contains s.name = false) :
    (∃ d, applyPatches applyOk true vendorDirs patchDirs = .error (.unknownCrate d))
      ∧ Stage.licenseStage ∉
          mainStages (applyPatches applyOk true vendorDirs patchDirs) licenseRes crabRes
      ∧ Stage.crabStage ∉
          mainStages (applyPatches applyOk true vendorDirs patchDirs) licenseRes crabRes := by
  have hscan : ∃ d, patchScan applyOk vendorDirs patchDirs ([], false) = .error d := by
    cases hres : patchScan applyOk vendorDirs patchDirs ([], false) with
    | error d => exact ⟨d, rfl⟩
    | ok x =>
      have hres2 := patchScan_ok_resolves applyOk vendorDirs patchDirs ([], false) x hres
        s hs hdir
      rw [hvd, hcn] at hres2
      simp at hres2
  obtain ⟨d, hd⟩ := hscan
  have happ : applyPatches applyOk true vendorDirs patchDirs = .error (.unknownCrate d) := by
    simp [applyPatches, hd]
  refine ⟨⟨d, happ⟩, ?_, ?_⟩ <;> rw [happ] <;> simp [mainStages]

/-- C6 demo: one selector naming a crate absent from the vendor tree. -/
def c6demoSelectors : List SelectorDir := [⟨"zzz", true, []⟩]

/-- C6 witness: the unknown selector `zzz` aborts before the license and
compliance stages on concrete inputs. -/
theorem c6_witness :
    (∃ d, applyPatches (fun _ _ => true) true ["a-1.0"] c6demoSelectors
        = .error (.unknownCrate d))
      ∧ Stage.licenseStage ∉
          mainStages (applyPatches (fun _ _ => true) true ["a-1.0"] c6demoSelectors)
            (.ok ()) (.ok ())
      ∧ Stage.crabStage ∉
          mainStages (applyPatches (fun _ _ => true) true ["a-1.0"] c6demoSelectors)
            (.ok ()) (.ok ()) :=
  c6_thm (fun _ _ => true) ["a-1.0"] c6demoSelectors ⟨"zzz", true, []⟩ (.ok ()) (.ok ())
    (by decide) rfl (by decide) (by decide)

/-! ## Claim theorems for the license resolver -/

/-- C3 demo filesystem: the package directory holds a single generic
license file whose content matches none of the content signatures. -/
def c3demoFsys : String → List LFile :=
  fun d => if d == "demo-1.0" then [⟨"LICENSE", "Permission is granted", true⟩] else []

/-- C3 demo package: two supported terms, so the preferred-kind content scan
runs, and it finds no match. -/
def c3demoPkg : Package := ⟨"reg+demo@1.0", "demo", "1.0", some "MIT OR ISC"⟩

/-- C3 exhibits a code bug: the package fails to resolve (its outcome is the
silent fall-through of the multiple-supported-terms branch), yet
`generate_license` raises no error at all and the package appears neither in
the license map nor in `bad_licenses` — the aggregate error does not name
it, contradicting the claim (and the documented never-swallow policy). -/
theorem c3_code_bug_eval :
    processPackage [] c3demoFsys c3demoPkg = .silent
      ∧ generateLicense [] c3demoFsys [c3demoPkg]
        = .ok { licenseMap := [], badLicenses := [], hasTypes := [], hasUnicode := false } := by
  exact ⟨rfl, rfl⟩

/-- C5 demo directory listing: a generic `COPYRIGHT` listed before an
explicit `LICENSE-MIT`. -/
def c5demoFiles : List LFile :=
  [⟨"COPYRIGHT", "Copyright Demo Authors", true⟩,
   ⟨"LICENSE-MIT", "MIT License text", true⟩]

/-- C5 demo filesystem. -/
def c5demoFsys : String → List LFile :=
  fun d => if d == "demo-1.0" then c5demoFiles else []

/-- C5 demo package with the single supported term MIT. -/
def c5demoPkg : Package := ⟨"reg+demo@1.0", "demo", "1.0", some "MIT"⟩

/-- C5 is false as stated: candidates come back in directory-listing order,
not pattern-specificity order — the generic `COPYRIGHT` (pattern index 1)
precedes the most-specific `LICENSE-MIT` (pattern index 0), and the
single-term package records `COPYRIGHT` although a most-specific-pattern
match exists. -/
theorem c5_counterexample :
    (findLicenseInDir "demo-1.0" c5demoFiles).map Cand.name = ["COPYRIGHT", "LICENSE-MIT"]
      ∧ licensePatternIdx "LICENSE-MIT" = some 0
      ∧ licensePatternIdx "COPYRIGHT" = some 1
      ∧ specificitySorted (findLicenseInDir "demo-1.0" c5demoFiles) = false
      ∧ processPackage [] c5demoFsys c5demoPkg
        = .resolved "MIT" (some "demo-1.0/COPYRIGHT") (some "MIT") false := by
  exact ⟨rfl, rfl, rfl, rfl, rfl⟩

/-- C5 (amended): the candidate list is the order-preserving,
case-insensitive filter of the directory listing — a file is a candidate iff
it is a regular file whose name matches one of the patterns, and candidates
keep directory-listing order rather than being regrouped by pattern
specificity; consequently a single-supported-term package records the first
candidate in listing order. -/
theorem c5_amended_thm (dir : String) (files : List LFile)
    (skipList : List String) (fsys : String → List LFile) (pkg : Package)
    (l : String) (c : Cand) (cs : List Cand)
    (h1 : skipList.contains pkg.name = false)
    (h2 : (lookupStr MAP_LICENSE_TO_OTHER pkg.name).isSome = false)
    (h3 : lookupPair STATIC_LICENSE_MAP pkg.name = none)
    (h4 : (pkg.license.getD "" == UNICODE_COMPOUND) = false)
    (h5 : supportedOf (pkg.license.getD "") = [l])
    (h6 : (l == APACHE_LICENSE) = false)
    (h7 : findLicenseInDir (pkg.name ++ "-" ++ pkg.version)
            (fsys (pkg.name ++ "-" ++ pkg.version)) = c :: cs) :
    ((findLicenseInDir dir files).map Cand.name).Sublist (files.map LFile.name)
      ∧ (∀ f ∈ files, f.isFile = true → matchesLicenseName f.name = true →
          (⟨dir, f.name, f.content⟩ : Cand) ∈ findLicenseInDir dir files)
      ∧ (∀ cd ∈ findLicenseInDir dir files,
          ∃ f, f ∈ files ∧ f.isFile = true ∧ matchesLicenseName f.name = true
            ∧ cd = ⟨dir, f.name, f.content⟩)
      ∧ processPackage skipList fsys pkg
        = .resolved l (some c.path) (some l) false := by
  refine ⟨?_, ?_, ?_, ?_⟩
  · have hsub := (List.filter_sublist
        (p := fun f => f.isFile && matchesLicenseName f.name) files).map LFile.name
    simpa [findLicenseInDir, List.map_map, Function.comp] using hsub
  · intro f hf hisf hm
    simp only [findLicenseInDir, List.mem_map, List.mem_filter]
    exact ⟨f, ⟨hf, by rw [hisf, hm]; rfl⟩, rfl⟩
  · intro cd hcd
    simp only [findLicenseInDir, List.mem_map, List.mem_filter] at hcd
    obtain ⟨f, ⟨hf, hok⟩, heq⟩ := hcd
    rw [Bool.and_eq_true] at hok
    exact ⟨f, hf, hok.1, hok.2, heq.symm⟩
  · unfold processPackage
    rw [h1]
    simp only [Bool.false_eq_true, if_false]
    rw [h2]
    simp only [Bool.false_eq_true, if_false]
    rw [h3]
    simp only []
    rw [h4]
    simp only [Bool.false_eq_true, if_false]
    rw [h5, h7]
    have hap : (([l] : List String).contains APACHE_LICENSE) = false := by
      rw [beq_eq_false_iff_ne] at h6
      simpa using fun h => h6 h.symm
    rw [hap]
    simp only [Bool.false_eq_true, if_false, List.length_singleton, beq_self_eq_true,
      if_true, List.headD_cons]

/-- C5 witness: on the demo inputs the amended theorem applies and the
recorded file is the first candidate, `COPYRIGHT`. -/
theorem c5_amended_witness :
    ((findLicenseInDir "demo-1.0" c5demoFiles).map Cand.name).Sublist
        (c5demoFiles.map LFile.name)
      ∧ (∀ f ∈ c5demoFiles, f.isFile = true → matchesLicenseName f.name = true →
          (⟨"demo-1.0", f.name, f.content⟩ : Cand) ∈ findLicenseInDir "demo-1.0" c5demoFiles)
      ∧ (∀ cd ∈ findLicenseInDir "demo-1.0" c5demoFiles,
          ∃ f, f ∈ c5demoFiles ∧ f.isFile = true ∧ matchesLicenseName f.name = true
            ∧ cd = ⟨"demo-1.0", f.name, f.content⟩)
      ∧ processPackage [] c5demoFsys c5demoPkg
        = .resolved "MIT" (some (Cand.path ⟨"demo-1.0", "COPYRIGHT", "Copyright Demo Authors"⟩))
            (some "MIT") false :=
  c5_amended_thm "demo-1.0" c5demoFiles [] c5demoFsys c5demoPkg "MIT"
    ⟨"demo-1.0", "COPYRIGHT", "Copyright Demo Authors"⟩
    [⟨"demo-1.0", "LICENSE-MIT", "MIT License text"⟩]
    rfl rfl rfl rfl rfl rfl rfl

/-- C7: any package that reaches the license-expression parse (not skipped,
not statically mapped, not the unicode compound) and has the privileged
Apache license among its supported terms resolves to the privileged license
with no license file recorded, regardless of what is on disk. -/
theorem c7_thm (skipList : List String) (fsys : String → List LFile) (pkg : Package)
    (h1 : skipList.contains pkg.name = false)
    (h2 : (lookupStr MAP_LICENSE_TO_OTHER pkg.name).isSome = false)
    (h3 : lookupPair STATIC_LICENSE_MAP pkg.name = none)
    (h4 : (pkg.license.getD "" == UNICODE_COMPOUND) = false)
    (h5 : (supportedOf (pkg.license.getD "")).contains APACHE_LICENSE = true) :
    processPackage skipList fsys pkg
      = .resolved APACHE_LICENSE none (some APACHE_LICENSE) false := by
  unfold processPackage
  rw [h1]
  simp only [Bool.false_eq_true, if_false]
  rw [h2]
  simp only [Bool.false_eq_true, if_false]
  rw [h3]
  simp only []
  rw [h4]
  simp only [Bool.false_eq_true, if_false]
  rw [h5]
  simp only [if_true]

/-- C7 demo filesystem: both an MIT-named and an Apache-named license file
are present. -/
def c7demoFsys : String → List LFile :=
  fun d => if d == "w7-1.0" then
    [⟨"LICENSE-MIT", "MIT License text", true⟩,
     ⟨"LICENSE-APACHE", "Apache License", true⟩]
  else []

/-- C7 demo package with expression `MIT OR Apache-2.0`. -/
def c7demoPkg : Package := ⟨"reg+w7@1.0", "w7", "1.0", some "MIT OR Apache-2.0"⟩

/-- C7 witness: with both license files on disk and `MIT OR Apache-2.0`
declared, the resolver picks Apache-2.0 and records no file. -/
theorem c7_witness :
    processPackage [] c7demoFsys c7demoPkg
      = .resolved "Apache-2.0" none (some "Apache-2.0") false :=
  c7_thm [] c7demoFsys c7demoPkg rfl rfl rfl rfl rfl

/-! ## Claim theorems for the crate destroyer -/

/-- C4 demo unfiltered set: two versions of `foo`. -/
def c4demoU : List Package :=
  [⟨"reg+foo@1.0", "foo", "1.0", none⟩, ⟨"reg+foo@2.0", "foo", "2.0", none⟩]

/-- C4 demo platform-filtered set: only `foo 1.0`. -/
def c4demoF : List Package := [⟨"reg+foo@1.0", "foo", "1.0", none⟩]

/-- C4 is false as stated: `foo 2.0` has its identity `(name, version)` in
the unfiltered set but not in the filtered set and exists on disk, yet it is
not destroyed, because the destroyer skips by *name* (`foo` is used by the
filtered `foo 1.0`). -/
theorem c4_counterexample :
    "foo-2.0" ∉ destroyUnusedCrates c4demoU c4demoF ["foo-1.0", "foo-2.0"]
      ∧ ("foo", "2.0") ∉ c4demoF.map (fun p => (p.name, p.version))
      ∧ "foo-2.0" ∈ ["foo-1.0", "foo-2.0"] := by
  refine ⟨by decide, by decide, by decide⟩

/-- C4 (amended): destruction applies to exactly the unfiltered packages
whose *name* does not occur among the platform-filtered packages' names and
whose vendored directory exists on disk; packages sharing a name with any
filtered package are skipped regardless of version. -/
theorem c4_amended_thm (unfiltered filtered : List Package) (onDisk : List String)
    (d : String) :
    d ∈ destroyUnusedCrates unfiltered filtered onDisk ↔
      ∃ p, p ∈ unfiltered ∧ dirNameOf p = d
        ∧ (filtered.map Package.name).contains p.name = false
        ∧ onDisk.contains d = true := by
  unfold destroyUnusedCrates
  induction unfiltered with
  | nil => simp [destroyLoop]
  | cons p rest ih =>
    unfold destroyLoop
    split
    · rename_i h1
      rw [ih]
      constructor
      · rintro ⟨q, hq, hprops⟩
        exact ⟨q, List.mem_cons_of_mem _ hq, hprops⟩
      · rintro ⟨q, hq, hdq, hnq, hod⟩
        rcases List.mem_cons.mp hq with rfl | hq'
        · rw [h1] at hnq; cases hnq
        · exact ⟨q, hq', hdq, hnq, hod⟩
    · rename_i h1
      rw [Bool.not_eq_true] at h1
      split
      · rename_i h2
        rw [List.mem_cons, ih]
        constructor
        · rintro (rfl | ⟨q, hq, hprops⟩)
          · exact ⟨p, List.mem_cons_self .., rfl, h1, h2⟩
          · exact ⟨q, List.mem_cons_of_mem _ hq, hprops⟩
        · rintro ⟨q, hq, hdq, hnq, hod⟩
          rcases List.mem_cons.mp hq with rfl | hq'
          · exact Or.inl hdq.symm
          · exact Or.inr ⟨q, hq', hdq, hnq, hod⟩
      · rename_i h2
        rw [Bool.not_eq_true] at h2
        rw [ih]
        constructor
        · rintro ⟨q, hq, hprops⟩
          exact ⟨q, List.mem_cons_of_mem _ hq, hprops⟩
        · rintro ⟨q, hq, hdq, hnq, hod⟩
          rcases List.mem_cons.mp hq with rfl | hq'
          · rw [hdq] at h2; rw [h2] at hod; cases hod
          · exact ⟨q, hq', hdq, hnq, hod⟩

/-! ## Claim theorem for the manifest rewrite -/

/-- C8: after `_modify_cargo_toml` the regular/build/dev dependency keys are
gone; the surviving target entries are exactly the original ones with their
dependency keys removed that did not end up empty (empty ones, or the whole
`target` key, are dropped); every feature is set to the empty list with its
name kept; bin/example/bench/test sections and the build/`default-run`/
`include` and `lib.path` directives are removed; and the package name and
version are unchanged. -/
theorem c8_thm (c : CargoToml) :
    (modify_cargo_toml c).dependencies = none
      ∧ (modify_cargo_toml c).build_dependencies = none
      ∧ (modify_cargo_toml c).dev_dependencies = none
      ∧ (∀ k v, (k, v) ∈ targetEntries (modify_cargo_toml c) ↔
          ∃ w, (k, w) ∈ targetEntries c ∧ v = cleanTargetTable w
            ∧ isEmptyTarget (cleanTargetTable w) = false)
      ∧ (modify_cargo_toml c).features
        = c.features.map (fun fs => fs.map (fun nv => (nv.1, ([] : List String))))
      ∧ (modify_cargo_toml c).bench = none
      ∧ (modify_cargo_toml c).bin = none
      ∧ (modify_cargo_toml c).examples = none
      ∧ (modify_cargo_toml c).test = none
      ∧ (modify_cargo_toml c).lib.map LibTable.path
        = c.lib.map (fun _ => (none : Option String))
      ∧ (modify_cargo_toml c).package.build = none
      ∧ (modify_cargo_toml c).package.default_run = none
      ∧ (modify_cargo_toml c).package.includeKey = none
      ∧ (modify_cargo_toml c).package.name = c.package.name
      ∧ (modify_cargo_toml c).package.version = c.package.version := by
  have hmc : modify_cargo_toml c
      = clean_source_related_lines_in_place
          (remove_all_dependencies_in_place
            (clean_features_in_place
              { c with package := { c.package with
                  description := some "Empty crate that should not build.",
                  license := some "Apache-2.0",
                  license_file := none,
                  links := none } })) := rfl
  rw [hmc, clean_features_eq, remove_deps_eq, clean_source_eq]
  refine ⟨rfl, rfl, rfl, ?_, rfl, rfl, rfl, rfl, rfl, ?_, rfl, rfl, rfl, rfl, rfl⟩
  · intro k v
    exact mem_cleanTargets c.target k v
  · rcases c.lib with _ | l <;> rfl

/-! ## Claim theorems for the compliance audit -/

theorem lookupStr_assocSet_self (m : List (String × String)) (k v : String) :
    lookupStr (assocSet m k v) k = some v := by
  induction m with
  | nil => simp [assocSet, lookupStr]
  | cons e rest ih =>
    obtain ⟨a, b⟩ := e
    unfold assocSet
    by_cases hak : (a == k) = true
    · rw [if_pos hak]
      simp [lookupStr]
    · rw [Bool.not_eq_true] at hak
      rw [hak]
      simp only [Bool.false_eq_true, if_false]
      unfold lookupStr
      rw [hak]
      simp only [Bool.false_eq_true, if_false]
      exact ih

theorem lookupStr_assocSet_ne (m : List (String × String)) (k v k' : String)
    (hne : k' ≠ k) :
    lookupStr (assocSet m k v) k' = lookupStr m k' := by
  have hkk' : (k == k') = false := beq_eq_false_iff_ne.mpr (Ne.symm hne)
  induction m with
  | nil =>
    simp only [assocSet, lookupStr]
    rw [hkk']
    simp
  | cons e rest ih =>
    obtain ⟨a, b⟩ := e
    unfold assocSet
    by_cases hak : (a == k) = true
    · rw [if_pos hak]
      have ha : a = k := eq_of_beq hak
      subst ha
      unfold lookupStr
      rw [hkk']
      simp
    · rw [Bool.not_eq_true] at hak
      rw [hak]
      simp only [Bool.false_eq_true, if_false]
      unfold lookupStr
      by_cases hak' : (a == k') = true
      · rw [hak']
        simp
      · rw [Bool.not_eq_true] at hak'
        rw [hak']
        simp only [Bool.false_eq_true, if_false]
        exact ih

/-- Case analysis of one audit step: skip, pass, or record a failure keyed
by the crab name. -/
theorem crabStep_eq (cf : String → Option CrabData) (acc : List (String × String))
    (q : Package) :
    (strContains "path+file:///" q.id = true ∧ crabStep cf acc q = acc)
    ∨ (strContains "path+file:///" q.id = false ∧ crabFails cf q = false
        ∧ crabStep cf acc q = acc)
    ∨ (strContains "path+file:///" q.id = false ∧ crabFails cf q = true
        ∧ ∃ r, crabStep cf acc q = assocSet acc (q.name ++ "-" ++ q.version) r) := by
  by_cases hskip : strContains "path+file:///" q.id = true
  · left
    refine ⟨hskip, ?_⟩
    simp [crabStep, hskip]
  · rw [Bool.not_eq_true] at hskip
    cases hcf : cf (q.name ++ "-" ++ q.version) with
    | none =>
      refine Or.inr (Or.inr ⟨hskip, ?_, "No crab file", ?_⟩)
      · simp [crabFails, hcf]
      · simp [crabStep, hskip, hcf]
    | some cd =>
      by_cases hmis : (q.name != cd.crate_name || q.version != cd.version) = true
      · refine Or.inr (Or.inr ⟨hskip, ?_, "Crate name or version don\x27t match", ?_⟩)
        · simp [crabFails, hcf, hmis]
        · simp [crabStep, hskip, hcf, hmis]
      · rw [Bool.not_eq_true] at hmis
        by_cases hbad : checkBadTraits cd = true
        · refine Or.inr (Or.inr ⟨hskip, ?_, "Failed bad traits check", ?_⟩)
          · simp [crabFails, hcf, hmis, hbad]
          · simp [crabStep, hskip, hcf, hmis, hbad]
        · rw [Bool.not_eq_true] at hbad
          refine Or.inr (Or.inl ⟨hskip, ?_, ?_⟩)
          · simp [crabFails, hcf, hmis, hbad]
          · simp [crabStep, hskip, hcf, hmis, hbad]

/-- Folding the audit over packages that never fail for a given crab name
leaves that name's lookup unchanged. -/
theorem foldl_lookup_none (cf : String → Option CrabData) (cn : String) :
    ∀ (l : List Package) (acc : List (String × String)),
      (∀ q ∈ l, strContains "path+file:///" q.id = false →
        q.name ++ "-" ++ q.version = cn → crabFails cf q = false) →
      lookupStr (l.foldl (crabStep cf) acc) cn = lookupStr acc cn := by
  intro l
  induction l with
  | nil => intro acc _; rfl
  | cons q rest ih =>
    intro acc hall
    rw [List.foldl_cons]
    have hstep : lookupStr (crabStep cf acc q) cn = lookupStr acc cn := by
      rcases crabStep_eq cf acc q with ⟨_, heq⟩ | ⟨_, _, heq⟩ | ⟨hsk, hfail, r, heq⟩
      · rw [heq]
      · rw [heq]
      · rw [heq]
        by_cases hcn : q.name ++ "-" ++ q.version = cn
        · rw [hall q (List.mem_cons_self ..) hsk hcn] at hfail
          cases hfail
        · exact lookupStr_assocSet_ne _ _ _ _ (fun h => hcn h.symm)
    rw [ih (crabStep cf acc q) (fun q' hq' => hall q' (List.mem_cons_of_mem _ hq')), hstep]

/-- Folding the audit never erases an already-recorded failure. -/
theorem foldl_lookup_isSome (cf : String → Option CrabData) (cn : String) :
    ∀ (l : List Package) (acc : List (String × String)),
      (lookupStr acc cn).isSome = true →
      (lookupStr (l.foldl (crabStep cf) acc) cn).isSome = true := by
  intro l
  induction l with
  | nil => intro acc h; exact h
  | cons q rest ih =>
    intro acc h
    rw [List.foldl_cons]
    refine ih _ ?_
    rcases crabStep_eq cf acc q with ⟨_, heq⟩ | ⟨_, _, heq⟩ | ⟨_, _, r, heq⟩
    · rw [heq]; exact h
    · rw [heq]; exact h
    · rw [heq]
      by_cases hcn : cn = q.name ++ "-" ++ q.version
      · rw [hcn, lookupStr_assocSet_self]; rfl
      · rw [lookupStr_assocSet_ne _ _ _ _ hcn]; exact h

/-- A failing, non-skipped package leaves a failure entry under its crab
name after the whole scan. -/
theorem foldl_mem_isSome (cf : String → Option CrabData) (p : Package)
    (hskip : strContains "path+file:///" p.id = false)
    (hfail : crabFails cf p = true) :
    ∀ (l : List Package) (acc : List (String × String)), p ∈ l →
      (lookupStr (l.foldl (crabStep cf) acc) (p.name ++ "-" ++ p.version)).isSome
        = true := by
  intro l
  induction l with
  | nil => intro acc h; simp at h
  | cons q rest ih =>
    intro acc hmem
    rw [List.foldl_cons]
    rcases List.mem_cons.mp hmem with rfl | hmem'
    · refine foldl_lookup_isSome cf _ rest _ ?_
      rcases crabStep_eq cf acc p with ⟨hs, _⟩ | ⟨_, hf, _⟩ | ⟨_, _, r, heq⟩
      · rw [hskip] at hs; cases hs
      · rw [hf] at hfail; cases hfail
      · rw [heq, lookupStr_assocSet_self]; rfl
    · exact ih _ hmem'

/-- C9: for a scanned package (not synthesized), assuming crab names are
unambiguous across the package list, the audit's failure map has an entry
under the package's crab name exactly when its attestation record is
missing, mismatched or deny-carrying; and any such failure makes the whole
stage raise, independently of the other packages. -/
theorem c9_thm (cf : String → Option CrabData) (pkgs : List Package) (p : Package)
    (hp : p ∈ pkgs)
    (hskip : strContains "path+file:///" p.id = false)
    (hid : ∀ q ∈ pkgs, q.name ++ "-" ++ q.version = p.name ++ "-" ++ p.version →
      q.name = p.name ∧ q.version = p.version) :
    ((lookupStr (verifyTraitsMap cf pkgs) (p.name ++ "-" ++ p.version)).isSome
        = crabFails cf p)
      ∧ (crabFails cf p = true →
        verifyTraits cf pkgs = .error "CRAB audit did not complete successfully.") := by
  cases hfail : crabFails cf p with
  | false =>
    refine ⟨?_, ?_⟩
    · have hnone := foldl_lookup_none cf (p.name ++ "-" ++ p.version) pkgs []
        (fun q hq hqs hqcn => by
          obtain ⟨hn, hv⟩ := hid q hq hqcn
          have hqp : crabFails cf q = crabFails cf p := by
            unfold crabFails
            rw [hn, hv]
          rw [hqp, hfail])
      unfold verifyTraitsMap
      rw [hnone]
      rfl
    · intro h; simp at h
  | true =>
    have hsome : (lookupStr (verifyTraitsMap cf pkgs)
        (p.name ++ "-" ++ p.version)).isSome = true :=
      foldl_mem_isSome cf p hskip hfail pkgs [] hp
    refine ⟨hsome, fun _ => ?_⟩
    unfold verifyTraits
    cases hmap : verifyTraitsMap cf pkgs with
    | nil => rw [hmap] at hsome; cases hsome
    | cons e rest => rfl

/-- C9 demo attestation lookup: only `bbb-2.0` has a record, and it carries
`deny = true`. -/
def c9demoCf : String → Option CrabData :=
  fun s => if s == "bbb-2.0" then some ⟨"bbb", "2.0", some true⟩ else none

/-- C9 demo packages: `aaa 1.0` has no record, `bbb 2.0` is denied. -/
def c9demoPkgs : List Package :=
  [⟨"reg+aaa@1.0", "aaa", "1.0", none⟩, ⟨"reg+bbb@2.0", "bbb", "2.0", none⟩]

/-- C9 witness: the record-less package `aaa 1.0` is recorded as failing and
the stage raises. -/
theorem c9_witness :
    ((lookupStr (verifyTraitsMap c9demoCf c9demoPkgs) ("aaa" ++ "-" ++ "1.0")).isSome
        = crabFails c9demoCf ⟨"reg+aaa@1.0", "aaa", "1.0", none⟩)
      ∧ (crabFails c9demoCf ⟨"reg+aaa@1.0", "aaa", "1.0", none⟩ = true →
        verifyTraits c9demoCf c9demoPkgs
          = .error "CRAB audit did not complete successfully.") :=
  c9_thm c9demoCf c9demoPkgs ⟨"reg+aaa@1.0", "aaa", "1.0", none⟩
    (by decide) rfl (by decide)

/-- C10: checksum regeneration rewrites only the `files` key of the sidecar;
every other top-level key is carried through unchanged (and a missing sidecar
stays missing). -/
theorem c10_thm (hash : String → String) (pkg : PackageDir) :
    ((rerunChecksums hash pkg).1.sidecar.map Sidecar.others)
      = pkg.sidecar.map Sidecar.others := by
  unfold rerunChecksums
  rcases hsc : pkg.sidecar with _ | sc
  · simp [hsc]
  · simp only [hsc]
    split
    · rw [hsc]
    · simp [hsc]

end Vendor
